import Mathlib

/-!
# Verified model of the `localhost` HTTP server

A shallow embedding of the parts of the `localhost` Rust HTTP server that the
correctness claims talk about: the header codec (`src/http/header.rs`), bodies
and responses (`src/http/body.rs`, `src/http/response.rs`), the session store
and manager (`src/server/session.rs`), the CGI output codec
(`src/server/cgi.rs`), the static file resolver (`src/server/static_files.rs`),
the streaming request reader (`src/server/stream.rs`,
`src/server/connection.rs`), and the router (`src/server/host.rs`).

Bytes are modelled as `Nat` (values 0‑255), Rust `String`s as Lean `String`s.
All inputs exercised by the theorems below are ASCII, where Rust's UTF‑8
string operations coincide with the character‑wise model used here.
-/

namespace Localhost

/-- A byte of the wire protocol, as an unbounded natural (only 0‑255 occur). -/
abbrev Byte := Nat

/-! ## String helpers shared by several Rust files

These model the Rust standard library string operations the server uses.
All of them are exact for ASCII data, which is the only data the server's
own string literals and the theorems below contain.  They are written by
structural recursion over character lists so that every concrete
computation reduces inside the kernel. -/

/-- First position of `pat` as a contiguous window of the list, as Rust's
`windows(n).position(..)` and `find_subsequence` compute it. -/
def findSeq {α : Type} [BEq α] (pat : List α) : List α → Option Nat
  | [] => none
  | a :: t =>
      if pat.isPrefixOf (a :: t) then some 0
      else (findSeq pat t).map (· + 1)

/-- Model of Rust `str::to_lowercase` restricted to ASCII (`Char.toLower`
lowercases exactly the letters `A`‑`Z`). -/
def asciiLower (s : String) : String := ⟨s.toList.map Char.toLower⟩

/-- Does `needle` occur as a contiguous sub-list of `hay`?  Models Rust
`str::contains` at the character-list level. -/
def hasSubList (needle : List Char) : List Char → Bool
  | [] => needle.isEmpty
  | a :: t => needle.isPrefixOf (a :: t) || hasSubList needle t

/-- Model of Rust `str::contains` for string arguments. -/
def strContains (hay needle : String) : Bool :=
  hasSubList needle.toList hay.toList

/-- Model of Rust `str::starts_with`. -/
def strStartsWith (s p : String) : Bool :=
  p.toList.isPrefixOf s.toList

/-- Model of Rust `str::ends_with`. -/
def strEndsWith (s p : String) : Bool :=
  p.toList.reverse.isPrefixOf s.toList.reverse

/-- Drop the final `n` characters. -/
def strDropRight (s : String) (n : Nat) : String :=
  ⟨s.toList.take (s.toList.length - n)⟩

/-- Model of Rust `str::trim` (ASCII whitespace at both ends). -/
def strTrim (s : String) : String :=
  ⟨((s.toList.dropWhile Char.isWhitespace).reverse.dropWhile
      Char.isWhitespace).reverse⟩

/-- Splitting on a separator sequence, fuelled (the separators used are
all nonempty, for which the fuel never runs out). -/
def splitSeqAux {α : Type} [BEq α] (sep : List α) :
    Nat → List α → List (List α)
  | 0, cs => [cs]
  | fuel + 1, cs =>
    match findSeq sep cs with
    | none => [cs]
    | some i => cs.take i :: splitSeqAux sep fuel (cs.drop (i + sep.length))

/-- Model of Rust `str::split` / Lean `String.splitOn` for a nonempty
separator: every (possibly empty) piece between occurrences. -/
def strSplitOn (s sep : String) : List String :=
  (splitSeqAux sep.toList (s.toList.length + 1) s.toList).map (fun cs => ⟨cs⟩)

/-- `String.intercalate`, structurally. -/
def strIntercalate (sep : String) : List String → String
  | [] => ""
  | [x] => x
  | x :: rest => x ++ sep ++ strIntercalate sep rest

/-- Decimal digits of a natural, most significant first (`fuel` bounds the
division chain; `n` itself suffices). -/
def natToStrAux : Nat → Nat → List Char
  | 0, _ => []
  | fuel + 1, n =>
      if n = 0 then []
      else natToStrAux fuel (n / 10) ++ [Char.ofNat (48 + n % 10)]

/-- Decimal rendering of a natural number (Rust's `Display for usize`). -/
def natToStr (n : Nat) : String :=
  if n = 0 then "0" else ⟨natToStrAux n n⟩

/-- Decimal rendering of an integer (Rust's `Display for i64`, serde's
number rendering). -/
def intToStr (n : Int) : String :=
  if n < 0 then "-" ++ natToStr n.natAbs else natToStr n.natAbs

/-- Numeric value of a list of ASCII decimal digits. -/
def digitsToNat (cs : List Char) : Nat :=
  cs.foldl (fun n c => n * 10 + (c.toNat - 48)) 0

/-- Model of Rust `str::parse::<usize>` / `<u64>` / `<u16>`: an optional
leading `+`, then one or more decimal digits.  (Rust's overflow failure is
not modelled; the Lean value is unbounded.  No claim involves overflow.) -/
def parseNatDec (s : String) : Option Nat :=
  let cs := match s.toList with
    | '+' :: t => t
    | cs => cs
  if cs ≠ [] ∧ cs.all Char.isDigit then some (digitsToNat cs) else none

/-- Value of one ASCII hex digit, if it is one. -/
def hexDigitVal (c : Char) : Option Nat :=
  if '0' ≤ c ∧ c ≤ '9' then some (c.toNat - 48)
  else if 'a' ≤ c ∧ c ≤ 'f' then some (c.toNat - 87)
  else if 'A' ≤ c ∧ c ≤ 'F' then some (c.toNat - 55)
  else none

/-- Model of Rust `usize::from_str_radix(s, 16)`: an optional leading `+`,
then one or more hex digits. -/
def parseNatHex (s : String) : Option Nat :=
  let cs := match s.toList with
    | '+' :: t => t
    | cs => cs
  if cs ≠ [] ∧ cs.all (fun c => (hexDigitVal c).isSome) then
    some (cs.foldl (fun n c => n * 16 + ((hexDigitVal c).getD 0)) 0)
  else none

/-- Model of Rust `str::lines`: split on `'\n'`, drop a final empty segment
(split-terminator semantics), and strip one trailing `'\r'` per line. -/
def rustLines (s : String) : List String :=
  if s = "" then []
  else
    let parts := strSplitOn s "\n"
    let parts := if parts.getLast? = some "" then parts.dropLast else parts
    parts.map (fun l => if strEndsWith l "\r" then strDropRight l 1 else l)

/-- Model of Rust `str::splitn(2, sep)` for a one-character separator:
the text before the first `sep`, and everything after it (or just the
whole string when `sep` does not occur). -/
def rustSplitN2 (sep : Char) (s : String) : List String :=
  let pre := s.toList.takeWhile (· ≠ sep)
  if pre.length = s.toList.length then [s]
  else [⟨pre⟩, ⟨s.toList.drop (pre.length + 1)⟩]

/-- Model of Rust `str::split_whitespace`: maximal nonempty runs of
non-whitespace characters. -/
def rustSplitWhitespace (s : String) : List String :=
  ((s.toList.foldr
      (fun c (acc : List (List Char)) =>
        if c.isWhitespace then [] :: acc
        else match acc with
          | [] => [[c]]
          | w :: ws => (c :: w) :: ws)
      []).filter (· ≠ [])).map (fun w => ⟨w⟩)

/-- Model of Rust `str::trim_start_matches('/')`. -/
def trimStartSlashes (s : String) : String :=
  ⟨s.toList.dropWhile (· = '/')⟩

/-! ## `src/http/header.rs` -/

/-- `HeaderName` from `src/http/header.rs`: the enumerated known header
names plus free-form custom names. -/
inductive HeaderName where
  | contentType
  | contentLength
  | contentDisposition
  | connection
  | transferEncoding
  | cookie
  | setCookie
  | cacheControl
  | date
  | host
  | accept
  | acceptLanguage
  | acceptEncoding
  | server
  | statusCode
  | eTag
  | lastModified
  | strictTransportSecurity
  | custom (name : String)
  deriving DecidableEq, Repr

/-- `HeaderName::from_str` (src/http/header.rs lines 186‑206): lowercase the
incoming name and match it against the known literals.  Note that the match
has no arm for `"cookie"` or `"set-cookie"`, so those names fall to the
catch-all and become custom headers. -/
def headerNameFromStr (name : String) : HeaderName :=
  match asciiLower name with
  | "content-type" => .contentType
  | "content-length" => .contentLength
  | "content-disposition" => .contentDisposition
  | "transfer-encoding" => .transferEncoding
  | "connection" => .connection
  | "date" => .date
  | "host" => .host
  | "accept" => .accept
  | "accept-language" => .acceptLanguage
  | "accept-encoding" => .acceptEncoding
  | "server" => .server
  | "status-code" => .statusCode
  | "cache-control" => .cacheControl
  | "etag" => .eTag
  | "last-modified" => .lastModified
  | "strict-transport-security" => .strictTransportSecurity
  | _ => .custom name

/-- `HeaderName::as_str`: canonical rendering of the known names (custom
names render as the empty string here, exactly as in the source). -/
def headerNameAsStr : HeaderName → String
  | .contentType => "Content-Type"
  | .contentLength => "Content-Length"
  | .contentDisposition => "Content-Disposition"
  | .transferEncoding => "Transfer-Encoding"
  | .connection => "Connection"
  | .cookie => "Cookie"
  | .setCookie => "Set-Cookie"
  | .date => "Date"
  | .host => "Host"
  | .accept => "Accept"
  | .acceptLanguage => "Accept-Language"
  | .acceptEncoding => "Accept-Encoding"
  | .server => "Server"
  | .statusCode => "Status-Code"
  | .cacheControl => "Cache-Control"
  | .eTag => "ETag"
  | .lastModified => "Last-Modified"
  | .strictTransportSecurity => "Strict-Transport-Security"
  | .custom _ => ""

/-- `Display for HeaderName`: custom names print their stored text, known
names print `as_str`. -/
def headerNameToStr : HeaderName → String
  | .custom name => name
  | n => headerNameAsStr n

/-- `ContentType` enumeration from `src/http/header.rs`. -/
inductive CType where
  | textPlain
  | textHtml
  | applicationJson
  | applicationXml
  | applicationFormUrlEncoded
  | multipartFormData
  | raw
  deriving DecidableEq, Repr

/-- `ContentType::from_str`. -/
def cTypeFromStr (value : String) : CType :=
  match asciiLower value with
  | "text/plain" => .textPlain
  | "text/html" => .textHtml
  | "application/json" => .applicationJson
  | "application/xml" => .applicationXml
  | "application/x-www-form-urlencoded" => .applicationFormUrlEncoded
  | "multipart/form-data" => .multipartFormData
  | _ => .raw

/-- `TransferEncoding` enumeration. -/
inductive TransferEnc where
  | chunked
  | compress
  | deflate
  | gzip
  | identity
  deriving DecidableEq, Repr

/-- `Connection` enumeration (keep-alive / close). -/
inductive ConnectionHdr where
  | keepAlive
  | close
  deriving DecidableEq, Repr

/-- `SameSitePolicy` from `src/http/header.rs`. -/
inductive SameSitePolicy where
  | strict
  | lax
  | none
  deriving DecidableEq, Repr

/-- `CookieOptions` from `src/http/header.rs`.  `expires` holds the value of
a `SystemTime` as seconds; its `Debug` rendering (used by `Cookie::to_string`)
is parameterised in `cookieToString` below because Rust's `Debug` format for
`SystemTime` is implementation-defined. -/
structure CookieOptions where
  httpOnly : Bool
  secure : Bool
  maxAge : Option Nat
  path : Option String
  expires : Option Nat
  domain : Option String
  sameSite : SameSitePolicy
  deriving DecidableEq, Repr

/-- `impl Default for CookieOptions` (src/http/header.rs lines 420‑433):
`path` defaults to `"/"` and `same_site` to `Lax`. -/
def defaultCookieOptions : CookieOptions :=
  { httpOnly := false
    secure := false
    maxAge := none
    path := some "/"
    expires := none
    domain := none
    sameSite := .lax }

/-- `Cookie` from `src/http/header.rs`. -/
structure Cookie where
  name : String
  value : String
  options : CookieOptions
  deriving DecidableEq, Repr

/-- `Cookie::new`. -/
def cookieNew (name value : String) : Cookie :=
  { name := name, value := value, options := defaultCookieOptions }

/-- One iteration of the option-parsing loop of `Cookie::parse`: an
attribute `key[=value]` updates the cookie's options.  `expires` is set to
"now" by the source (it ignores the attribute's value); the model stores 0. -/
def cookieApplyOpt (c : Cookie) (opt : String) : Option Cookie :=
  let parts := strSplitOn opt "="
  match parts.get? 0 with
  | Option.none => none
  | some keyRaw =>
    let key := strTrim keyRaw
    let value := strTrim ((parts.get? 1).getD "")
    some <| match asciiLower key with
      | "httponly" => { c with options := { c.options with httpOnly := true } }
      | "secure" => { c with options := { c.options with secure := true } }
      | "max-age" =>
          { c with options := { c.options with maxAge := some ((parseNatDec value).getD 0) } }
      | "path" => { c with options := { c.options with path := some value } }
      | "expires" => { c with options := { c.options with expires := some 0 } }
      | "domain" => { c with options := { c.options with domain := some value } }
      | "samesite" =>
          { c with options := { c.options with sameSite :=
              (match asciiLower value with
               | "strict" => SameSitePolicy.strict
               | "lax" => SameSitePolicy.lax
               | _ => SameSitePolicy.none) } }
      | _ => c

/-- `Cookie::parse` (src/http/header.rs lines 347‑381): split on `';'`, read
`name=value` from the first piece, then fold the remaining attribute pieces.
The `?` early exits of the source surface as `Option.none`. -/
def cookieParse (cookieStr : String) : Option Cookie :=
  match strSplitOn cookieStr ";" with
  | [] => none
  | nameValue :: rest =>
    let nvParts := strSplitOn nameValue "="
    match nvParts.get? 0, nvParts.get? 1 with
    | some n, some v =>
        let init := cookieNew (strTrim n) (strTrim v)
        rest.foldl (fun acc opt => acc.bind (fun c => cookieApplyOpt c opt)) (some init)
    | _, _ => none

/-- `Cookie::to_string` (src/http/header.rs lines 383‑417).  `timeDebug`
renders the `{:?}` Debug format of the stored `Expires` time. -/
def cookieToString (timeDebug : Nat → String) (c : Cookie) : String :=
  let s := c.name ++ "=" ++ c.value
  let s := if c.options.httpOnly then s ++ "; HttpOnly" else s
  let s := if c.options.secure then s ++ "; Secure" else s
  let s := match c.options.maxAge with
    | some a => s ++ "; Max-Age=" ++ natToStr a
    | Option.none => s
  let s := match c.options.path with
    | some p => s ++ "; Path=" ++ p
    | Option.none => s
  let s := match c.options.expires with
    | some e => s ++ "; Expires=" ++ timeDebug e
    | Option.none => s
  let s := match c.options.domain with
    | some d => s ++ "; Domain=" ++ d
    | Option.none => s
  match c.options.sameSite with
  | .strict => s ++ "; SameSite=Strict"
  | .lax => s ++ "; SameSite=Lax"
  | .none => s ++ "; SameSite=None"

/-- `HeaderParsedValue` from `src/http/header.rs` (the `Date` variant is
parsed to `Raw` by the source, so no time payload is needed). -/
inductive HeaderParsedValue where
  | contentType (t : CType)
  | contentLength (n : Nat)
  | connection (c : ConnectionHdr)
  | transferEncoding (t : TransferEnc)
  | server (s : String)
  | custom (s : String)
  | cookie (c : Cookie)
  | raw
  deriving DecidableEq, Repr

/-- `HeaderParsedValue::from_str` (src/http/header.rs lines 290‑331). -/
def headerParsedValueFromStr (headerName : HeaderName) (value : String) :
    HeaderParsedValue :=
  match headerName with
  | .contentType => .contentType (cTypeFromStr value)
  | .contentLength =>
      match parseNatDec value with
      | some n => .contentLength n
      | Option.none => .raw
  | .transferEncoding =>
      match asciiLower value with
      | "chunked" => .transferEncoding .chunked
      | "compress" => .transferEncoding .compress
      | "deflate" => .transferEncoding .deflate
      | "gzip" => .transferEncoding .gzip
      | "identity" => .transferEncoding .identity
      | _ => .raw
  | .connection =>
      match asciiLower value with
      | "keep-alive" => .connection .keepAlive
      | "close" => .connection .close
      | _ => .raw
  | .cookie =>
      match cookieParse value with
      | some c => .cookie c
      | Option.none => .raw
  | .server => .server value
  | .date => .raw
  | _ => .custom value

/-- `Header` from `src/http/header.rs`: a name, the raw value string and
its best-effort structured parse. -/
structure Header where
  name : HeaderName
  value : String
  parsedValue : Option HeaderParsedValue
  deriving DecidableEq, Repr

/-- `Header::from_str`. -/
def headerFromStr (name value : String) : Header :=
  let headerName := headerNameFromStr name
  { name := headerName
    value := value
    parsedValue := some (headerParsedValueFromStr headerName value) }

/-- `Display for Header`: `"{name}: {value}"`. -/
def headerToStr (h : Header) : String :=
  headerNameToStr h.name ++ ": " ++ h.value

/-! ## `src/http/status.rs` -/

/-- `HttpStatusCode` from `src/http/status.rs`. -/
inductive HttpStatusCode where
  | ok | created | accepted | noContent
  | movedPermanently | found | seeOther | notModified
  | temporaryRedirect | permanentRedirect
  | badRequest | unauthorized | forbidden | notFound | methodNotAllowed
  | requestTimeout | conflict | gone | lengthRequired | preconditionFailed
  | payloadTooLarge | uriTooLong | unsupportedMediaType
  | rangeNotSatisfiable | expectationFailed
  | internalServerError | notImplemented | badGateway | serviceUnavailable
  | gatewayTimeout | httpVersionNotSupported
  deriving DecidableEq, Repr

/-- The numeric discriminant of each status (the `as u16` cast used by
`Response::to_string`). -/
def statusCodeNum : HttpStatusCode → Nat
  | .ok => 200 | .created => 201 | .accepted => 202 | .noContent => 204
  | .movedPermanently => 301 | .found => 302 | .seeOther => 303
  | .notModified => 304 | .temporaryRedirect => 307 | .permanentRedirect => 308
  | .badRequest => 400 | .unauthorized => 401 | .forbidden => 403
  | .notFound => 404 | .methodNotAllowed => 405 | .requestTimeout => 408
  | .conflict => 409 | .gone => 410 | .lengthRequired => 411
  | .preconditionFailed => 412 | .payloadTooLarge => 413 | .uriTooLong => 414
  | .unsupportedMediaType => 415 | .rangeNotSatisfiable => 416
  | .expectationFailed => 417 | .internalServerError => 500
  | .notImplemented => 501 | .badGateway => 502 | .serviceUnavailable => 503
  | .gatewayTimeout => 504 | .httpVersionNotSupported => 505

/-- `HttpStatusCode::from_code`. -/
def statusFromCode (code : Nat) : Option HttpStatusCode :=
  match code with
  | 200 => some .ok | 201 => some .created | 202 => some .accepted
  | 204 => some .noContent | 301 => some .movedPermanently
  | 302 => some .found | 303 => some .seeOther | 304 => some .notModified
  | 307 => some .temporaryRedirect | 308 => some .permanentRedirect
  | 400 => some .badRequest | 401 => some .unauthorized
  | 403 => some .forbidden | 404 => some .notFound
  | 405 => some .methodNotAllowed | 408 => some .requestTimeout
  | 409 => some .conflict | 410 => some .gone | 411 => some .lengthRequired
  | 412 => some .preconditionFailed | 413 => some .payloadTooLarge
  | 414 => some .uriTooLong | 415 => some .unsupportedMediaType
  | 416 => some .rangeNotSatisfiable | 417 => some .expectationFailed
  | 500 => some .internalServerError | 501 => some .notImplemented
  | 502 => some .badGateway | 503 => some .serviceUnavailable
  | 504 => some .gatewayTimeout | 505 => some .httpVersionNotSupported
  | _ => none

/-! ## `src/http/body.rs` -/

/-- A `serde_json::Value`.  Numbers are modelled as integers (the server
only ever builds integer and string fields).  `jsonToString` below follows
serde's compact rendering for these constructors. -/
inductive Json where
  | null
  | bool (b : Bool)
  | num (n : Int)
  | str (s : String)
  | arr (elems : List Json)
  | obj (fields : List (String × Json))

mutual

/-- Compact serialisation of a `Json` value, as `serde_json::Value::to_string`
renders it (string escaping is not modelled; no claim serialises a string
that needs escapes). -/
def jsonToString : Json → String
  | .null => "null"
  | .bool b => if b then "true" else "false"
  | .num n => intToStr n
  | .str s => "\"" ++ s ++ "\""
  | .arr elems => "[" ++ jsonListToString elems ++ "]"
  | .obj fields => "\x7b" ++ jsonFieldsToString fields ++ "\x7d"

/-- Comma-separated array elements. -/
def jsonListToString : List Json → String
  | [] => ""
  | [j] => jsonToString j
  | j :: rest => jsonToString j ++ "," ++ jsonListToString rest

/-- Comma-separated object fields. -/
def jsonFieldsToString : List (String × Json) → String
  | [] => ""
  | [(k, v)] => "\"" ++ k ++ "\":" ++ jsonToString v
  | (k, v) :: rest =>
      "\"" ++ k ++ "\":" ++ jsonToString v ++ "," ++ jsonFieldsToString rest

end

/-- `MultipartFile` from `src/http/body.rs`. -/
structure MultipartFile where
  filename : String
  contentType : String
  data : List Byte
  deriving DecidableEq, Repr

/-- `Body` from `src/http/body.rs`.  The two `HashMap`s of the source
(`FormData`, multipart fields/files) are modelled as association lists whose
order stands for the map's iteration order. -/
inductive Body where
  | text (s : String)
  | json (j : Json)
  | formUrlEncoded (data : List (String × String))
  | binary (data : List Byte)
  | multipart (fields : List (String × String)) (files : List (String × MultipartFile))
  | empty

/-- `Body::body_len` (src/http/body.rs lines 236‑255).  Rust `String::len`
counts bytes; `String.length` counts characters — identical on the ASCII
data of every theorem below. -/
def bodyLen : Body → Nat
  | .text s => s.length
  | .json j => (jsonToString j).length
  | .formUrlEncoded form =>
      (strIntercalate "&" (form.map (fun kv => kv.1 ++ "=" ++ kv.2))).length
  | .binary data => data.length
  | .multipart fields files =>
      (fields.map (fun kv => kv.1.length + kv.2.length)).sum +
      (files.map (fun kv =>
        kv.1.length + kv.2.filename.length + kv.2.contentType.length +
        kv.2.data.length)).sum
  | .empty => 0

/-- `impl fmt::Display for Body` (src/http/body.rs lines 331‑353): the
string the server actually pushes onto the wire for each body variant.
Binary data is rendered as the placeholder `"<N bytes of binary data>"`
and multipart as a `"Multipart Form (Fields: n, Files: m)"` summary. -/
def bodyToString : Body → String
  | .text s => s
  | .json j => jsonToString j
  | .formUrlEncoded form =>
      strIntercalate "&" (form.map (fun kv => kv.1 ++ "=" ++ kv.2))
  | .binary data => "<" ++ natToStr data.length ++ " bytes of binary data>"
  | .multipart fields files =>
      "Multipart Form (Fields: " ++ natToStr fields.length ++
      ", Files: " ++ natToStr files.length ++ ")"
  | .empty => ""

/-! ## `src/http/response.rs` -/

/-- `Response` from `src/http/response.rs`. -/
structure Response where
  version : String
  statusCode : HttpStatusCode
  headers : List Header
  body : Option Body

/-- `Response::new`: the version is always `"HTTP/1.1"`. -/
def responseNew (statusCode : HttpStatusCode) (headers : List Header)
    (body : Option Body) : Response :=
  { version := "HTTP/1.1", statusCode := statusCode, headers := headers,
    body := body }

/-- `Response::to_string` (src/http/response.rs lines 133‑147):
`"{version} {code}\r\n"`, one `"{name}: {value}\r\n"` per header, a blank
line, then the `Display` form of the body. -/
def responseToString (r : Response) : String :=
  let head := r.version ++ " " ++ natToStr (statusCodeNum r.statusCode) ++ "\r\n"
  let withHeaders :=
    r.headers.foldl (fun acc h => acc ++ headerToStr h ++ "\r\n") head
  let withBlank := withHeaders ++ "\r\n"
  match r.body with
  | some body => withBlank ++ bodyToString body
  | Option.none => withBlank

/-- `Response::response_with_json`. -/
def responseWithJson (data : Json) (status : HttpStatusCode) : Response :=
  let body := Body.json data
  responseNew status
    [headerFromStr "content-type" "application/json",
     headerFromStr "content-length" (natToStr (bodyLen body))]
    (some body)

/-! ## `src/server/session.rs`

Time is modelled as a natural number of seconds handed in as `now`; the
source reads `SystemTime::now()` at the corresponding points. -/

/-- `Session` from `src/server/session.rs`. -/
structure Session where
  id : String
  data : List (String × String)
  createdAt : Nat
  expiresAt : Option Nat
  deriving DecidableEq, Repr

/-- `Session::new`: `expires_at = now + max_age` when a max age is given. -/
def sessionNew (now : Nat) (maxAge : Option Nat) : Session :=
  { id := "", data := [], createdAt := now,
    expiresAt := maxAge.map (fun age => now + age) }

/-- `Session::is_expired` (src/server/session.rs lines 32‑34): true exactly
when an expiry is set and `now` is strictly past it. -/
def isExpired (now : Nat) (s : Session) : Bool :=
  match s.expiresAt with
  | some e => decide (now > e)
  | Option.none => false

/-- `MemorySessionStore`: the source's `HashMap<String, Session>` modelled
as an association list; `storeSet` replaces the binding of an existing key,
as `HashMap::insert` does. -/
structure MemorySessionStore where
  sessions : List (String × Session)
  deriving DecidableEq, Repr

/-- `SessionStore::get` for the memory store: lookup by id. -/
def storeGet (st : MemorySessionStore) (id : String) : Option Session :=
  (st.sessions.find? (fun kv => kv.1 == id)).map (·.2)

/-- `SessionStore::set`: insert or replace the record under `session.id`. -/
def storeSet (st : MemorySessionStore) (s : Session) : MemorySessionStore :=
  { sessions := (s.id, s) :: st.sessions.filter (fun kv => kv.1 ≠ s.id) }

/-- `SessionStore::delete`: remove the record with the given id. -/
def storeDelete (st : MemorySessionStore) (id : String) : MemorySessionStore :=
  { sessions := st.sessions.filter (fun kv => kv.1 ≠ id) }

/-- `SessionStore::cleanup_expired`: retain the unexpired records. -/
def storeCleanupExpired (now : Nat) (st : MemorySessionStore) :
    MemorySessionStore :=
  { sessions := st.sessions.filter (fun kv => ¬ isExpired now kv.2) }

/-- `SessionOptionsConfig` from `src/config/config.rs`. -/
structure SessionOptionsConfig where
  httpOnly : Option Bool
  secure : Option Bool
  maxAge : Option Nat
  path : Option String
  expires : Option Nat
  domain : Option String
  sameSite : Option String
  deriving DecidableEq, Repr

/-- `SessionConfig` from `src/config/config.rs`. -/
structure SessionConfig where
  enabled : Option Bool
  name : Option String
  options : Option SessionOptionsConfig
  deriving DecidableEq, Repr

/-- `SessionError` variants reachable from the session manager. -/
inductive SessionError where
  | sessionExpired (id : String)
  | sessionExpiredRedirect (url : String)
  deriving DecidableEq, Repr

/-- The cookie built by `SessionManager::create_session`
(src/server/session.rs lines 139‑169) for the freshly minted id.  When the
configuration has an options block, each attribute defaults individually
(note the `SameSite` catch-all arm yields `Strict`); when there is no
options block at all, `Cookie::new` applies `CookieOptions::default()`. -/
def createSessionCookie (now : Nat) (config : SessionConfig) (id : String) :
    Cookie :=
  match config.options with
  | some opts =>
      let options : CookieOptions :=
        { httpOnly := opts.httpOnly.getD false
          secure := opts.secure.getD false
          maxAge := opts.maxAge
          path := opts.path
          expires := opts.expires.map (fun secs => now + secs)
          domain := opts.domain
          sameSite :=
            (match (opts.sameSite.map asciiLower) with
             | some "strict" => SameSitePolicy.strict
             | some "lax" => SameSitePolicy.lax
             | some "none" => SameSitePolicy.none
             | _ => SameSitePolicy.strict) }
      { name := config.name.getD "", value := id, options := options }
  | Option.none => cookieNew (config.name.getD "") id

/-- `SessionManager::create_session`: build the cookie for a fresh `id`
(the source calls `generate_id()`; the id is a parameter here), create the
session with `max_age`, store it, and return session, updated store and the
`set-cookie` header.  `timeDebug` renders `Expires` as in `cookieToString`. -/
def createSession (timeDebug : Nat → String) (now : Nat)
    (config : SessionConfig) (store : MemorySessionStore) (id : String) :
    Session × MemorySessionStore × Header :=
  let cookie := createSessionCookie now config id
  let session := { sessionNew now cookie.options.maxAge with id := id }
  let store := storeSet store session
  (session, store, headerFromStr "set-cookie" (cookieToString timeDebug cookie))

/-- `SessionManager::get_session` (src/server/session.rs lines 171‑184):
parse the cookie header, look the cookie's value up in the store; expired
records are deleted and reported as `SessionExpired`; a missing header,
unparsable cookie or missing record yields `Ok(None)`. -/
def getSession (now : Nat) (store : MemorySessionStore)
    (cookieHeader : Option Header) :
    Except SessionError (Option Session) × MemorySessionStore :=
  match cookieHeader with
  | some header =>
      match cookieParse header.value with
      | some cookie =>
          match storeGet store cookie.value with
          | some session =>
              if ¬ isExpired now session then (Except.ok (some session), store)
              else (Except.error (SessionError.sessionExpired cookie.value),
                    storeDelete store cookie.value)
          | Option.none => (Except.ok none, store)
      | Option.none => (Except.ok none, store)
  | Option.none => (Except.ok none, store)

/-- `SessionManager::destroy_session` (src/server/session.rs lines 186‑199):
delete the id from the store and build the invalidating cookie
(`CookieOptions::default()` with `Max-Age=0`, empty value). -/
def destroySession (timeDebug : Nat → String) (config : SessionConfig)
    (store : MemorySessionStore) (sessionId : String) :
    MemorySessionStore × Header :=
  let store := storeDelete store sessionId
  let options := { defaultCookieOptions with maxAge := some 0 }
  let cookie : Cookie :=
    { name := config.name.getD "", value := "", options := options }
  (store, headerFromStr "set-cookie" (cookieToString timeDebug cookie))

/-! ## `src/server/cgi.rs` -/

/-- The CGI error variants reachable from `parse_cgi_output`. -/
inductive CGIError where
  | scriptOutputError (stderr : String)
  | invalidOutputFormat
  deriving DecidableEq, Repr

/-- The child process result consumed by `parse_cgi_output`: exit status
and captured output streams (already decoded, as by `from_utf8_lossy`). -/
structure ProcessOutput where
  statusSuccess : Bool
  stdout : String
  stderr : String
  deriving DecidableEq, Repr

/-- One line of the CGI header block (the loop body of `parse_cgi_output`):
a `Status:` line updates the status code, any other `name: value` line is
appended as a header, and everything else is dropped. -/
def cgiHeaderLine (acc : List Header × HttpStatusCode) (line : String) :
    List Header × HttpStatusCode :=
  let (headers, status) := acc
  if strStartsWith (asciiLower line) "status:" then
    match (rustSplitN2 ':' line).get? 1 with
    | some statusStr =>
        match (rustSplitWhitespace (strTrim statusStr)).get? 0 with
        | some codeStr =>
            match parseNatDec codeStr with
            | some code =>
                match statusFromCode code with
                | some sc => (headers, sc)
                | Option.none => (headers, status)
            | Option.none => (headers, status)
        | Option.none => (headers, status)
    | Option.none => (headers, status)
  else
    let hParts := rustSplitN2 ':' line
    match hParts.get? 0, hParts.get? 1 with
    | some n, some v => (headers ++ [headerFromStr (strTrim n) (strTrim v)], status)
    | _, _ => (headers, status)

/-- `CGIConfig::parse_cgi_output` (src/server/cgi.rs lines 48‑96): a failed
exit is `ScriptOutputError`; otherwise stdout is split on every CRLF CRLF,
fewer than two pieces is `InvalidOutputFormat`, the first piece is parsed
line by line as the header block, a missing `Content-Type` is defaulted to
`text/plain`, and the body is exactly the second piece (`parts[1]`). -/
def parseCgiOutput (output : ProcessOutput) : Except CGIError Response :=
  if ¬ output.statusSuccess then
    Except.error (CGIError.scriptOutputError output.stderr)
  else
    let parts := strSplitOn output.stdout "\r\n\r\n"
    if parts.length < 2 then Except.error CGIError.invalidOutputFormat
    else
      let (headers, statusCode) :=
        (rustLines ((parts.get? 0).getD "")).foldl cgiHeaderLine
          ([], HttpStatusCode.ok)
      let headers :=
        if ¬ headers.any
            (fun h => asciiLower (headerNameToStr h.name) = "content-type") then
          headers ++ [headerFromStr "content-type" "text/plain"]
        else headers
      Except.ok (responseNew statusCode headers
        (some (Body.text ((parts.get? 1).getD ""))))

/-! ## `src/server/stream.rs`

`stream.read` is modelled by a list of chunks: each call hands out the next
chunk; an empty chunk — and an exhausted list — model `read` returning `0`
(peer closed).  The busy loop of `process_chunked_body` is modelled with
fuel: a `none` result for *every* fuel value is a genuine non-termination
of the source loop, since each iteration that makes no progress leaves the
state unchanged. -/

/-- `MAX_REQUEST_SIZE` from `src/server/stream.rs` (and
`src/server/connection.rs`): 10 MiB.  In `stream.rs` the constant is
declared but never consulted by `UnifiedReader`. -/
def MAX_REQUEST_SIZE : Nat := 10 * 1024 * 1024

/-- First position of `pat` as a contiguous window of the byte list
(`windows(n).position(..)` / `find_subsequence` of the source). -/
def findPattern (pat : List Byte) : List Byte → Option Nat :=
  findSeq pat

/-- `find_headers_end`: position just after the first CRLF CRLF. -/
def findHeadersEnd (data : List Byte) : Option Nat :=
  (findPattern [13, 10, 13, 10] data).map (· + 4)

/-- `find_line_end`: position just after the first CRLF. -/
def findLineEnd (data : List Byte) : Option Nat :=
  (findPattern [13, 10] data).map (· + 2)

/-- ASCII decoding of a byte list; models `String::from_utf8` on the ASCII
subset (all wire data in the theorems below is ASCII). -/
def bytesToStringAscii (data : List Byte) : Option String :=
  if data.all (· < 128) then some ⟨data.map Char.ofNat⟩ else none

/-- `parse_chunk_size`: UTF‑8 decode, trim, hex parse. -/
def parseChunkSize (line : List Byte) : Option Nat :=
  (bytesToStringAscii line).bind (fun s => parseNatHex (strTrim s))

/-- `ReaderType` from `src/server/stream.rs`. -/
inductive ReaderType where
  | unknown
  | standard (contentLength : Nat)
  | chunked
  deriving DecidableEq, Repr

/-- `RequestData`: raw request bytes and the end-of-headers position. -/
structure ReqData where
  data : List Byte
  headersEnd : Nat
  deriving DecidableEq, Repr

/-- `RequestState` from `src/server/stream.rs`. -/
inductive ReqState where
  | awaitingHeaders
  | processingBody (accumulatedData : List Byte) (headersEnd : Nat)
  | complete (rd : ReqData)
  | endOfStream
  deriving DecidableEq, Repr

/-- The `UnifiedReader` with its stream modelled as the list of chunks the
socket will deliver. -/
structure UnifiedReader where
  incoming : List (List Byte)
  buffer : List Byte
  state : ReqState
  readerType : ReaderType
  currentChunkSize : Option Nat
  deriving DecidableEq, Repr

/-- `UnifiedReader::new`. -/
def unifiedReaderNew (incoming : List (List Byte)) : UnifiedReader :=
  { incoming := incoming, buffer := [], state := .awaitingHeaders,
    readerType := .unknown, currentChunkSize := none }

/-- `determine_reader_type` (src/server/stream.rs lines 145‑159): chunked
when some header line mentions `transfer-encoding: chunked`; otherwise the
parsed `Content-Length`; `Standard{0}` when both fail. -/
def determineReaderType (data : List Byte) (headersEnd : Nat) : ReaderType :=
  match bytesToStringAscii (data.take headersEnd) with
  | some headersStr =>
      if (rustLines headersStr).any
          (fun l => strContains (asciiLower l) "transfer-encoding: chunked") then
        .chunked
      else
        match ((rustLines headersStr).find?
                  (fun l => strStartsWith (asciiLower l) "content-length:")).bind
                (fun line => (strSplitOn line ":").get? 1) |>.bind
                (fun len => parseNatDec (strTrim len)) with
        | some contentLength => .standard contentLength
        | Option.none => .standard 0
  | Option.none => .standard 0

/-- The `while` loop of `process_standard_body`: keep reading whole chunks
until the accumulated data reaches `totalExpected`.  Returns the remaining
stream and `some` final accumulation, or `none` when a read returned `0`. -/
def processStandardAux (totalExpected : Nat) :
    List (List Byte) → List Byte → List (List Byte) × Option (List Byte)
  | incoming, acc =>
    if totalExpected ≤ acc.length then (incoming, some acc)
    else
      match incoming with
      | [] => ([], none)
      | c :: rest =>
          if c.isEmpty then (rest, none)
          else processStandardAux totalExpected rest (acc ++ c)

/-- `process_standard_body` (src/server/stream.rs lines 161‑188): on
success the first `total_expected` bytes become the request, the excess
stays in the buffer, and the state becomes `Complete`. -/
def processStandardBody (r : UnifiedReader) (acc : List Byte)
    (headersEnd contentLength : Nat) : UnifiedReader × ReqState :=
  let total := headersEnd + contentLength
  match processStandardAux total r.incoming acc with
  | (rest, some acc') =>
      let rd : ReqData := { data := acc'.take total, headersEnd := headersEnd }
      let r := { r with
                 incoming := rest
                 buffer := acc'.drop total
                 state := .complete rd }
      (r, r.state)
  | (rest, Option.none) => ({ r with incoming := rest }, .endOfStream)

/-- The mutable locals of the `process_chunked_body` loop. -/
structure ChunkedState where
  incoming : List (List Byte)
  buffer : List Byte
  currentChunkSize : Option Nat
  acc : List Byte
  deriving DecidableEq, Repr

/-- Result of one iteration of the `process_chunked_body` loop. -/
inductive ChunkedIter where
  | done (s : ChunkedState)
  | eofHit (s : ChunkedState)
  | next (s : ChunkedState)
  deriving DecidableEq, Repr

/-- One iteration of the `process_chunked_body` loop
(src/server/stream.rs lines 196‑232): maybe read a size line (a zero size
completes the request at once, leaving the buffer untouched); then, if a
chunk size is pending, either consume `size + 2` buffered bytes or read
more from the stream.  An iteration with no pending size and no complete
size line does nothing at all. -/
def chunkedIter (s : ChunkedState) : ChunkedIter :=
  let s :=
    match s.currentChunkSize with
    | Option.none =>
        match findLineEnd s.buffer with
        | some lineEnd =>
            match parseChunkSize (s.buffer.take (lineEnd - 2)) with
            | some size =>
                if size = 0 then s  -- handled below: zero size returns
                else { s with
                       currentChunkSize := some size
                       buffer := s.buffer.drop lineEnd }
            | Option.none => s
        | Option.none => s
    | some _ => s
  -- the zero-size early return of the source:
  match s.currentChunkSize, findLineEnd s.buffer with
  | Option.none, some lineEnd =>
      if parseChunkSize (s.buffer.take (lineEnd - 2)) = some 0 then .done s
      else nextOrRead s
  | _, _ => nextOrRead s
where
  /-- The second half of the loop body. -/
  nextOrRead (s : ChunkedState) : ChunkedIter :=
    match s.currentChunkSize with
    | some size =>
        if size + 2 ≤ s.buffer.length then
          .next { s with
                  acc := s.acc ++ s.buffer.take size
                  buffer := s.buffer.drop (size + 2)
                  currentChunkSize := none }
        else
          match s.incoming with
          | [] => .eofHit { s with incoming := [] }
          | c :: rest =>
              if c.isEmpty then .eofHit { s with incoming := rest }
              else .next { s with incoming := rest, buffer := s.buffer ++ c }
    | Option.none => .next s

/-- Outcome of `process_chunked_body`. -/
inductive ChunkedResult where
  | complete (acc : List Byte)
  | eof
  deriving DecidableEq, Repr

/-- The `process_chunked_body` loop, iterated with fuel.  `none` at every
fuel value means the source loop never returns. -/
def processChunkedAux (fuel : Nat) (s : ChunkedState) :
    Option (ChunkedState × ChunkedResult) :=
  match fuel with
  | 0 => none
  | fuel + 1 =>
      match chunkedIter s with
      | .done s' => some (s', .complete s'.acc)
      | .eofHit s' => some (s', .eof)
      | .next s' => processChunkedAux fuel s'

/-- `process_chunked_body` at the reader level: thread the reader's stream,
buffer and pending chunk size through the loop; completion stores
`Complete` in the reader state. -/
def processChunkedBody (fuel : Nat) (r : UnifiedReader) (acc : List Byte)
    (headersEnd : Nat) : Option (UnifiedReader × ReqState) :=
  match processChunkedAux fuel
      { incoming := r.incoming, buffer := r.buffer,
        currentChunkSize := r.currentChunkSize, acc := acc } with
  | some (s, .complete accFinal) =>
      let rd : ReqData := { data := accFinal, headersEnd := headersEnd }
      some ({ r with
              incoming := s.incoming
              buffer := s.buffer
              currentChunkSize := s.currentChunkSize
              state := .complete rd },
            .complete rd)
  | some (s, .eof) =>
      some ({ r with
              incoming := s.incoming
              buffer := s.buffer
              currentChunkSize := s.currentChunkSize }, .endOfStream)
  | Option.none => none

/-- `UnifiedReader::read_next` (src/server/stream.rs lines 243‑287).
Note there is no size check anywhere: the buffer may grow without bound
while headers are awaited.  `none` propagates fuel exhaustion of the
chunked loop (and of the single header→body recursion of the source). -/
def readNext (fuel : Nat) (r : UnifiedReader) : Option (UnifiedReader × ReqState) :=
  match fuel with
  | 0 => none
  | fuel + 1 =>
      match r.state with
      | .awaitingHeaders =>
          match r.incoming with
          | [] => some (r, .endOfStream)
          | chunk :: rest =>
              if chunk.isEmpty then some ({ r with incoming := rest }, .endOfStream)
              else
                let buffer := r.buffer ++ chunk
                match findHeadersEnd buffer with
                | some headersEnd =>
                    let accumulatedData := buffer
                    let r := { r with
                               incoming := rest
                               buffer := buffer.drop headersEnd
                               readerType := determineReaderType accumulatedData headersEnd
                               state := .processingBody accumulatedData headersEnd }
                    readNext fuel r
                | Option.none =>
                    some ({ r with incoming := rest, buffer := buffer },
                          .awaitingHeaders)
      | .processingBody accumulatedData headersEnd =>
          match r.readerType with
          | .unknown => some (r, .endOfStream)
          | .standard contentLength =>
              some (processStandardBody r accumulatedData headersEnd contentLength)
          | .chunked => processChunkedBody fuel r accumulatedData headersEnd
      | .complete rd => some (r, .complete rd)
      | .endOfStream => some (r, .endOfStream)

/-! ## `src/server/static_files.rs`

Paths are modelled as lists of components (the result of Rust's
`Path::components`, which drops empty and `"."` components but keeps
`".."`).  The filesystem is a read-only snapshot: a list of regular files
keyed by *canonical* absolute path (all `".."`/`"."` resolved) plus the set
of directories; `normalizePath` performs the resolution the operating
system applies when a path is actually opened.  `write_directory_data`'s
emission of `data.js` is not modelled (no claim observes it). -/

/-- Canonical form of a path: `"."` components vanish and `".."` removes
the preceding component (at the root it vanishes, as in the filesystem). -/
def normalizePath (p : List String) : List String :=
  p.foldl
    (fun acc seg =>
      if seg = "." then acc
      else if seg = ".." then acc.dropLast
      else acc ++ [seg])
    []

/-- Components of a path string, as `Path::components` yields them. -/
def splitPath (s : String) : List String :=
  (strSplitOn s "/").filter (fun seg => seg ≠ "" ∧ seg ≠ ".")

/-- A snapshot of the relevant part of the filesystem. -/
structure Fs where
  files : List (List String × List Byte)
  dirs : List (List String)
  deriving DecidableEq, Repr

/-- Contents of the regular file a path resolves to, if any. -/
def fsLookup (fs : Fs) (p : List String) : Option (List Byte) :=
  (fs.files.find? (fun kv => kv.1 == normalizePath p)).map (·.2)

/-- `Path::is_file` under the snapshot. -/
def fsIsFile (fs : Fs) (p : List String) : Bool :=
  (fsLookup fs p).isSome

/-- `Path::is_dir` under the snapshot. -/
def fsIsDir (fs : Fs) (p : List String) : Bool :=
  fs.dirs.contains (normalizePath p)

/-- `FileStatus` from `src/server/static_files.rs`. -/
inductive FileStatus where
  | ok
  | notFound
  | directoryListingNotAllowed
  | raw
  deriving DecidableEq, Repr

/-- `ErrorPages`: the custom error-page map (status string → path). -/
structure ErrorPages where
  customPages : List (String × String)
  deriving DecidableEq, Repr

/-- `ServerStaticFiles` (the `status` field is the mutable best-status the
source threads through `set_status`). -/
structure ServerStaticFiles where
  directory : List String
  index : Option String
  allowDirectoryListing : Bool
  errorPages : Option ErrorPages
  status : FileStatus
  deriving DecidableEq, Repr

/-- Errors of the static-file component that the claims can observe.  (The
model's filesystem snapshot cannot fail to read an existing file, so the
I/O error constructors of the source are unreachable here.) -/
inductive StaticError where
  | directoryListingError (msg : String)
  deriving DecidableEq, Repr

/-- The extension of the final path component, per `Path::extension`. -/
def pathExtension (p : List String) : Option String :=
  match p.getLast? with
  | some name =>
      let parts := strSplitOn name "."
      if parts.length ≤ 1 then none
      else if strStartsWith name "." ∧ parts.length = 2 then none
      else parts.getLast?
  | Option.none => none

/-- `get_mime_type` via `mime_guess::from_path(..).first_or_octet_stream()`:
modelled for the extensions the theorems touch, with the same
`application/octet-stream` fallback as the crate. -/
def getMimeType (p : List String) : String :=
  match pathExtension p with
  | some "html" => "text/html"
  | some "htm" => "text/html"
  | some "txt" => "text/plain"
  | some "css" => "text/css"
  | some "json" => "application/json"
  | some "png" => "image/png"
  | some "pdf" => "application/pdf"
  | _ => "application/octet-stream"

/-- `ServerStaticFiles::serve_file` (src/server/static_files.rs lines
118‑140), with fuel for the error-page recursion (the source recurses
unboundedly when the 404 page is itself missing).  A missing file flips the
status to `NotFound` and retries on the configured 404 page, else on the
built-in error template; an existing file is returned with its MIME type
and the current status. -/
def serveFile (fs : Fs) :
    Nat → ServerStaticFiles → List String →
    Option (Except StaticError (List Byte × Option String × FileStatus) × ServerStaticFiles)
  | 0, _, _ => none
  | fuel + 1, sf, path =>
    match fsLookup fs path with
    | Option.none =>
        let sf := { sf with status := FileStatus.notFound }
        match sf.errorPages.bind
            (fun ep => (ep.customPages.find? (fun kv => kv.1 == "404")).map (·.2)) with
        | some page => serveFile fs fuel sf (splitPath page)
        | Option.none =>
            serveFile fs fuel sf
              (sf.directory ++ [".default", "error", "error_template.html"])
    | some buffer =>
        some (Except.ok (buffer, some (getMimeType path), sf.status), sf)

/-- `serve_directory`: serves the prebuilt `directory_listing.html` template
(the `data.js` regeneration is not modelled). -/
def serveDirectory (fs : Fs) (fuel : Nat) (sf : ServerStaticFiles) :
    Option (Except StaticError (List Byte × Option String × FileStatus) × ServerStaticFiles) :=
  serveFile fs fuel sf (sf.directory ++ [".default", "directory_listing.html"])

/-- `ServerStaticFiles::serve_static` (src/server/static_files.rs lines
79‑105): strip leading slashes, join to the root, serve a listing for
directories when enabled, else the configured index when present and
listing is disabled, else the built-in landing page for the bare root with
no index, else the joined path itself as a file.  There is no check that
the joined path stays under the root. -/
def serveStatic (fs : Fs) (fuel : Nat) (sf : ServerStaticFiles) (path : String) :
    Option (Except StaticError (List Byte × Option String × FileStatus) × ServerStaticFiles) :=
  let defaultPath := sf.directory ++ [".default", "index.html"]
  let stripped := trimStartSlashes path
  let fullPath := sf.directory ++ splitPath stripped
  if fsIsDir fs fullPath ∧ sf.allowDirectoryListing then
    serveDirectory fs fuel sf
  else
    let tail :=
      if sf.index = none ∧ fullPath = sf.directory then
        serveFile fs fuel sf defaultPath
      else serveFile fs fuel sf fullPath
    match sf.index with
    | some idx =>
        if fsIsFile fs (fullPath ++ [idx]) ∧ ¬ sf.allowDirectoryListing then
          serveFile fs fuel sf (fullPath ++ [idx])
        else tail
    | Option.none => tail

/-- `ServerStaticFiles::is_directory_contain_file`:
`self.directory.join(path).is_file()`. -/
def isDirectoryContainFile (fs : Fs) (sf : ServerStaticFiles)
    (p : List String) : Bool :=
  fsIsFile fs (sf.directory ++ p)

/-! ## Body interpretation (`Body::from_mime` and multipart parsing) -/

/-- `BodyError` from `src/http/body.rs`. -/
inductive BodyError where
  | invalidUtf8 (msg : String)
  | invalidJson (msg : String)
  | unsupportedMimeType (mime : String)
  | parseError (msg : String)
  | multipartError (msg : String)
  deriving DecidableEq, Repr

/-- `Display for BodyError`. -/
def bodyErrorToStr : BodyError → String
  | .invalidUtf8 msg => "Invalid UTF-8: " ++ msg
  | .invalidJson msg => "Invalid JSON: " ++ msg
  | .unsupportedMimeType mime => "Unsupported MIME type: " ++ mime
  | .parseError msg => "Parse error: " ++ msg
  | .multipartError msg => "Multipart error: " ++ msg

/-- Insert-or-replace on an association list: the map semantics of
`HashMap::insert`. -/
def insertReplace (m : List (String × α)) (k : String) (v : α) :
    List (String × α) :=
  (k, v) :: m.filter (fun kv => kv.1 ≠ k)

/-- `FormUrlEncoded::parse_str` (src/http/body.rs lines 313‑322): split on
`'&'`, drop empty pairs, each pair must split as `key=value`. -/
def formParseStr (input : String) : Except BodyError (List (String × String)) :=
  ((strSplitOn input "&").filter (· ≠ "")).foldlM
    (fun d pair =>
      match rustSplitN2 '=' pair with
      | [k, v] => Except.ok (insertReplace d k v)
      | _ => Except.error (BodyError.parseError "Invalid form data format"))
    []

/-- ASCII bytes of a string (model of `str::as_bytes` for ASCII data). -/
def strToBytes (s : String) : List Byte := s.toList.map Char.toNat

/-- The `split_multipart` loop (src/http/body.rs lines 356‑368): scan for
boundary occurrences; every slice between two boundaries, less its
trailing CRLF, becomes a part.  Fuel bounds the loop (the source advances
at least one byte per iteration for the nonempty boundaries it is called
with). -/
def splitMultipartAux (data boundary : List Byte) :
    Nat → Nat → List (List Byte)
  | 0, _ => []
  | fuel + 1, currentPos =>
    match findPattern boundary (data.drop currentPos) with
    | Option.none => []
    | some pos =>
        let rest := splitMultipartAux data boundary fuel
          (currentPos + pos + boundary.length)
        if currentPos > 0 then
          ((data.drop currentPos).take (pos - 2)) :: rest
        else rest

/-- `split_multipart`. -/
def splitMultipart (data boundary : List Byte) : List (List Byte) :=
  splitMultipartAux data boundary (data.length + 1) 0

/-- Model of `str::split_once(':')`. -/
def splitOnceColon (s : String) : Option (String × String) :=
  match rustSplitN2 ':' s with
  | [a, b] => some (a, b)
  | _ => none

/-- The line loop of `parse_part` (src/http/body.rs lines 371‑393): CRLF
positions are found relative to `pos`; a CRLF at offset 2 stops the loop;
UTF‑8 lines with a colon become headers, non-UTF‑8 lines are appended to
the part data.  (This is exactly the source's — rather odd — logic.) -/
def parsePartAux (part : List Byte) :
    Nat → Nat → List Header → List Byte → List Header × List Byte
  | 0, _, headers, partData => (headers, partData)
  | fuel + 1, pos, headers, partData =>
    match findPattern [13, 10] (part.drop pos) with
    | Option.none => (headers, partData)
    | some lineEnd =>
        if lineEnd = 2 then (headers, partData)
        else
          let lineBytes := (part.drop pos).take lineEnd
          match bytesToStringAscii lineBytes with
          | some line =>
              match splitOnceColon line with
              | some (n, v) =>
                  parsePartAux part fuel (pos + lineEnd + 2)
                    (headers ++ [headerFromStr n v]) partData
              | Option.none =>
                  parsePartAux part fuel (pos + lineEnd + 2) headers partData
          | Option.none =>
              parsePartAux part fuel (pos + lineEnd + 2) headers
                (partData ++ lineBytes)

/-- `parse_part` (always returns `Some` in the source). -/
def parsePart (part : List Byte) : Option (List Header × List Byte) :=
  some (parsePartAux part (part.length + 1) 0 [] [])

/-- `ParsedContentDisposition` / `ParsedContentType`: a leading token and
`key=value` parameters. -/
structure ParsedParams where
  leading : String
  params : List (String × String)
  deriving DecidableEq, Repr

/-- Shared splitting of `";"`-separated `key=value` parameter lists, as
`parse_content_disposition` and `parse_content_type` both perform it. -/
def parseSemiParams (value : String) : ParsedParams :=
  let parts := (strSplitOn value ";").map strTrim
  let leading := (parts.get? 0).getD ""
  let params := (parts.drop 1).foldl
    (fun acc part =>
      let kv := strSplitOn part "="
      insertReplace acc ((kv.get? 0).getD "") ((kv.get? 1).getD ""))
    []
  { leading := leading, params := params }

/-- `ParsedContentDisposition::parse_content_disposition`: only on a
`Content-Disposition` header. -/
def parseContentDisposition (h : Header) : Option ParsedParams :=
  if h.name = HeaderName.contentDisposition then some (parseSemiParams h.value)
  else none

/-- `ContentType::parse_content_type`: only on a `Content-Type` header. -/
def parseContentTypeHdr (h : Header) : Option ParsedParams :=
  if h.name = HeaderName.contentType then some (parseSemiParams h.value)
  else none

/-- The per-part body of `MultipartForm::set_data`
(src/http/body.rs lines 77‑112). -/
def multipartAddPart (acc : List (String × String) × List (String × MultipartFile))
    (part : List Byte) :
    List (String × String) × List (String × MultipartFile) :=
  let (fields, files) := acc
  match parsePart part with
  | some (headers, pdata) =>
      match headers.find? (fun h => h.name = HeaderName.contentDisposition),
            headers.find? (fun h => h.name = HeaderName.contentType) with
      | some cd, some ct =>
          match parseContentDisposition cd, parseContentTypeHdr ct with
          | some pcd, some pct =>
              match (pcd.params.find? (fun kv => kv.1 == "name")).map (·.2) with
              | some nm =>
                  match (pcd.params.find? (fun kv => kv.1 == "filename")).map (·.2) with
                  | some fn =>
                      (fields, insertReplace files nm
                        { filename := fn, contentType := pct.leading, data := pdata })
                  | Option.none =>
                      match bytesToStringAscii pdata with
                      | some text => (insertReplace fields nm text, files)
                      | Option.none => (fields, files)
              | Option.none => (fields, files)
          | _, _ => (fields, files)
      | _, _ => (fields, files)
  | Option.none => (fields, files)

/-- `MultipartForm::set_data`: split on `"--" ++ boundary` and fold the
parts into field and file maps. -/
def multipartSetData (data : List Byte) (boundary : String) :
    List (String × String) × List (String × MultipartFile) :=
  (splitMultipart data (strToBytes ("--" ++ boundary))).foldl
    multipartAddPart ([], [])

/-- `Body::from_mime` (src/http/body.rs lines 155‑234), with the arms in
source order.  `jsonParse` stands for `serde_json::from_slice`, which lives
outside this repository. -/
def bodyFromMime (jsonParse : List Byte → Option Json) (mime : String)
    (data : List Byte) (boundary : Option String) : Except BodyError Body :=
  let m := asciiLower mime
  if m = "text/plain" ∨ m = "text/html" ∨ m = "text/css" ∨
     m = "text/javascript" ∨ m = "text/csv" then
    match bytesToStringAscii data with
    | some text => Except.ok (Body.text text)
    | Option.none => Except.error (BodyError.invalidUtf8 mime)
  else if m = "application/json" then
    match jsonParse data with
    | some j => Except.ok (Body.json j)
    | Option.none => Except.error (BodyError.invalidJson "invalid JSON")
  else if m = "application/x-www-form-urlencoded" then
    match bytesToStringAscii data with
    | some s => (formParseStr s).map Body.formUrlEncoded
    | Option.none => Except.error (BodyError.invalidUtf8 "form data")
  else if m = "multipart/form-data" then
    match boundary with
    | some b =>
        let (fields, files) := multipartSetData data b
        Except.ok (Body.multipart fields files)
    | Option.none => Except.error (BodyError.multipartError "Missing boundary")
  else if strStartsWith m "image/" then Except.ok (Body.binary data)
  else if m = "application/pdf" ∨ m = "application/msword" ∨
     m = "application/vnd.openxmlformats-officedocument.wordprocessingml.document" ∨
     m = "application/vnd.ms-excel" ∨
     m = "application/vnd.openxmlformats-officedocument.spreadsheetml.sheet" ∨
     m = "application/vnd.ms-powerpoint" ∨
     m = "application/vnd.openxmlformats-officedocument.presentationml.presentation" then
    Except.ok (Body.binary data)
  else if strStartsWith m "audio/" then Except.ok (Body.binary data)
  else if strStartsWith m "video/" then Except.ok (Body.binary data)
  else if m = "application/zip" ∨ m = "application/x-rar-compressed" ∨
     m = "application/x-7z-compressed" ∨ m = "application/x-tar" ∨
     m = "application/gzip" then
    Except.ok (Body.binary data)
  else if m = "application/octet-stream" then Except.ok (Body.binary data)
  else Except.error (BodyError.unsupportedMimeType mime)

/-! ## `src/http/request.rs`, `src/server/route.rs` and `src/server/host.rs` -/

/-- `HttpMethod` from `src/http/request.rs`. -/
inductive HttpMethod where
  | GET | POST | DELETE | PUT | PATCH | OPTIONS | HEAD | CONNECT | TRACE
  deriving DecidableEq, Repr

/-- `Request` from `src/http/request.rs`. -/
structure Request where
  method : HttpMethod
  uri : String
  version : String
  headers : List Header
  body : Option Body

/-- `CGIConfig` from `src/server/cgi.rs`. -/
structure CGIConfig where
  interpreter : String
  scriptDir : String
  allowedExtensions : List String
  deriving DecidableEq, Repr

/-- `Route` from `src/server/route.rs` (the `matcher` and `params` fields
are never read by `route_request` and are omitted). -/
structure Route where
  path : String
  methods : List HttpMethod
  staticFiles : Option ServerStaticFiles
  cgiConfig : Option CGIConfig
  redirect : Option String
  sessionRequired : Option Bool
  sessionRedirect : Option String

/-- `Route::is_method_allowed` (src/server/route.rs lines 92‑94).  (No code
under `src/` calls it.) -/
def isMethodAllowed (route : Route) (method : HttpMethod) : Bool :=
  route.methods.contains method

/-- `Header::from_mime`. -/
def headerFromMime (mime : String) : Header :=
  { name := HeaderName.contentType, value := mime,
    parsedValue := some (HeaderParsedValue.contentType (cTypeFromStr mime)) }

/-- `StaticFileHandler::handle_static_file_request`
(src/server/handlers.rs lines 56‑92): serve the URI through `serve_static`,
reinterpret the bytes through `Body::from_mime`, and answer 404 when the
file status says so, 200 otherwise.  Handler failures are carried as the
`io::Error` message strings `serve_http` produces.  The outer `Option` is
the fuel of the static-file recursion. -/
def staticHandlerServe (jsonParse : List Byte → Option Json) (fs : Fs)
    (fuel : Nat) (sf : ServerStaticFiles) (request : Request) :
    Option (Except String Response) :=
  match serveStatic fs fuel sf request.uri with
  | Option.none => none
  | some (Except.error e, _) =>
      some (Except.error ("Static file error: Directory listing error: " ++
        (match e with | .directoryListingError msg => msg)))
  | some (Except.ok (content, mime, fileStatus), _) =>
      let mimeStr := mime.getD "text/plain"
      some <|
        match bodyFromMime jsonParse mimeStr content none with
        | Except.error e =>
            Except.error ("Body creation error: " ++ bodyErrorToStr e)
        | Except.ok body =>
            let statusCode :=
              if fileStatus = FileStatus.notFound then HttpStatusCode.notFound
              else HttpStatusCode.ok
            Except.ok (responseNew statusCode
              [headerFromMime mimeStr,
               headerFromStr "content-length" (natToStr (bodyLen body))]
              (some body))

/-- `Path::new(dir).join(uri)`: joining an absolute path replaces the
base. -/
def rustPathJoin (base p : String) : List String :=
  if strStartsWith p "/" then splitPath p else splitPath base ++ splitPath p

/-- `CGIConfig::is_allowed_extension`. -/
def isAllowedExtension (cfg : CGIConfig) (p : List String) : Bool :=
  match pathExtension p with
  | some ext => cfg.allowedExtensions.contains ext
  | Option.none => false

/-- `Display for CGIError`, as far as `parse_cgi_output` can produce it. -/
def cgiErrorToStr : CGIError → String
  | .scriptOutputError msg => "CGI script error: " ++ msg
  | .invalidOutputFormat => "Invalid CGI output format"

/-- `CGIHandler::serve_http` / `handle_request`
(src/server/handlers.rs lines 110‑212).  `exec` is the outcome of spawning
the interpreter (a process outside this repository): `Except.error` models
a spawn failure with its message.  `Path::exists` is true for files and
directories of the snapshot. -/
def cgiHandlerServe (fs : Fs) (exec : Except String ProcessOutput)
    (cfg : CGIConfig) (request : Request) : Except String Response :=
  let scriptPath := rustPathJoin cfg.scriptDir request.uri
  if ¬ (fsIsFile fs scriptPath ∨ fsIsDir fs scriptPath) then
    Except.ok (responseNew HttpStatusCode.notFound
      [headerFromStr "content-type" "text/plain"]
      (some (Body.text "CGI script not found")))
  else if ¬ isAllowedExtension cfg scriptPath then
    Except.ok (responseNew HttpStatusCode.forbidden
      [headerFromStr "content-type" "text/plain"]
      (some (Body.text "Script type not allowed")))
  else
    match exec with
    | Except.error e =>
        let body := Body.text ("Failed to execute CGI script: " ++ e)
        Except.ok (responseNew HttpStatusCode.internalServerError
          [headerFromStr "content-type" "text/plain",
           headerFromStr "content-length" (natToStr (bodyLen body))]
          (some body))
    | Except.ok output =>
        if ¬ output.statusSuccess then
          let body := Body.text ("CGI script error: " ++ output.stderr)
          Except.ok (responseNew HttpStatusCode.internalServerError
            [headerFromStr "content-type" "text/plain",
             headerFromStr "content-length" (natToStr (bodyLen body))]
            (some body))
        else
          match parseCgiOutput output with
          | Except.ok response => Except.ok response
          | Except.error e =>
              let body :=
                Body.text ("Failed to parse CGI output: CGI Error: " ++
                  cgiErrorToStr e)
              Except.ok (responseNew HttpStatusCode.internalServerError
                [headerFromStr "content-type" "text/plain",
                 headerFromStr "content-length" (natToStr (bodyLen body))]
                (some body))

/-- `ServerError` as observed through `route_request`. -/
inductive ServerError where
  | connectionError (msg : String)
  deriving DecidableEq, Repr

/-- `Host::redirect`: a 301 with a `location` header and no body. -/
def hostRedirect (redirect : String) : Response :=
  responseNew HttpStatusCode.movedPermanently
    [headerFromStr "location" redirect] none

/-- The 404 fallback of the `(GET, _)` arm of `route_request`. -/
def notFoundFallbackResponse : Response :=
  let body := Body.text "Not Found"
  responseNew HttpStatusCode.notFound
    [headerFromStr "Content-Type" "text/plain",
     headerFromStr "Content-Length" (natToStr (bodyLen body))]
    (some body)

/-- The catch-all 405 of `route_request`. -/
def methodNotAllowedResponse : Response :=
  let body := Body.text "Method Not Allowed"
  responseNew HttpStatusCode.methodNotAllowed
    [headerFromStr "Content-Type" "text/plain",
     headerFromStr "Content-Length" (natToStr (bodyLen body))]
    (some body)

/-- `Host::route_request` (src/server/host.rs lines 185‑271).

* `fileApi` and `sessionApi` model the upload and session handlers (their
  behaviour is irrelevant to the routing claims, which quantify over them);
  `hasUploader` / `hasSessionManager` model the corresponding `Option`s on
  the server and host.
* The redirect pre-check fires only when the URI equals the route path,
  a redirect target exists, the route has static files and the joined file
  does not exist.
* Dispatch is by method and URI shape alone: `/api/files` and
  `/api/session` prefixes go to their handlers for every method, `GET`
  goes to static files or CGI, and everything else is answered 405.
  The route's `methods` list is never consulted. -/
def routeRequest (jsonParse : List Byte → Option Json)
    (fileApi sessionApi : Request → Except String Response)
    (hasUploader hasSessionManager : Bool) (fs : Fs)
    (cgiExec : Except String ProcessOutput) (fuel : Nat)
    (request : Request) (route : Route) :
    Option (Except ServerError Response) :=
  let redirectCase :=
    if request.uri = route.path then
      match route.redirect, route.staticFiles with
      | some redirect, some listing =>
          if ¬ isDirectoryContainFile fs listing
              (splitPath (trimStartSlashes request.uri)) then
            some (hostRedirect redirect)
          else none
      | _, _ => none
    else none
  match redirectCase with
  | some response => some (Except.ok response)
  | Option.none =>
    if strStartsWith request.uri "/api/files" then
      if hasUploader then
        some ((fileApi request).mapError ServerError.connectionError)
      else
        some (Except.ok (responseWithJson
          (Json.obj [("message", Json.str "File upload service is not available")])
          HttpStatusCode.serviceUnavailable))
    else if strStartsWith request.uri "/api/session" then
      if hasSessionManager then
        some ((sessionApi request).mapError ServerError.connectionError)
      else
        some (Except.ok (responseWithJson
          (Json.obj [("message", Json.str "Session service is not available")])
          HttpStatusCode.serviceUnavailable))
    else
      match request.method with
      | HttpMethod.GET =>
          match route.staticFiles with
          | some staticFiles =>
              (staticHandlerServe jsonParse fs fuel staticFiles request).map
                (fun res => res.mapError ServerError.connectionError)
          | Option.none =>
              match route.cgiConfig with
              | some cgiConfig =>
                  some ((cgiHandlerServe fs cgiExec cgiConfig request).mapError
                    ServerError.connectionError)
              | Option.none => some (Except.ok notFoundFallbackResponse)
      | _ => some (Except.ok methodNotAllowedResponse)

/-! ## Concrete fixtures for the claim theorems -/

/-- C1: a site root `sites/r` holding `x.txt`, with a file `sites/secret`
*outside* the root. -/
def c1Fs : Fs :=
  { files := [(["sites", "secret"], [42]), (["sites", "r", "x.txt"], [104, 105])]
    dirs := [["sites", "r"]] }

/-- C1: static configuration rooted at `sites/r`, no index, no listing. -/
def c1Sf : ServerStaticFiles :=
  { directory := ["sites", "r"]
    index := none
    allowDirectoryListing := false
    errorPages := none
    status := FileStatus.raw }

/-- C2: a reader whose peer sends 10 MiB + 1 bytes of `'a'` with no header
terminator, then one more byte. -/
def c2Reader : UnifiedReader :=
  unifiedReaderNew [List.replicate (MAX_REQUEST_SIZE + 1) 97, [97]]

/-- C2: the reader after the first read: 10 MiB + 1 buffered bytes, still
awaiting headers. -/
def c2Reader1 : UnifiedReader :=
  { incoming := [[97]]
    buffer := List.replicate (MAX_REQUEST_SIZE + 1) 97
    state := ReqState.awaitingHeaders
    readerType := ReaderType.unknown
    currentChunkSize := none }

/-- C2: the reader after the second read: the buffer grew again. -/
def c2Reader2 : UnifiedReader :=
  { incoming := []
    buffer := List.replicate (MAX_REQUEST_SIZE + 2) 97
    state := ReqState.awaitingHeaders
    readerType := ReaderType.unknown
    currentChunkSize := none }

/-- C3: a four-byte binary body. -/
def c3Body : Body := Body.binary [1, 2, 3, 4]

/-- C3: the response a handler builds for it — `Content-Length` computed
with `body_len`, body emitted through `Display`. -/
def c3Response : Response :=
  responseNew HttpStatusCode.ok
    [headerFromStr "content-type" "application/octet-stream",
     headerFromStr "content-length" (natToStr (bodyLen c3Body))]
    (some c3Body)

/-- C4: first read — headers of a chunked POST, the 5-byte chunk, and the
zero-chunk line truncated after its `'\r'`. -/
def c4Chunk1 : List Byte :=
  strToBytes "POST / HTTP/1.1\r\nTransfer-Encoding: chunked\r\n\r\n5\r\nhello\r\n0\r"

/-- C4: the connection delivering the terminating zero-chunk line split
across two reads:  `…0\r` then `\n\r\n`. -/
def c4Reader : UnifiedReader :=
  unifiedReaderNew [c4Chunk1, strToBytes "\n\r\n"]

/-- C4: the reader after the header phase: chunked, body bytes
`5\r\nhello\r\n0\r` in the buffer. -/
def c4Reader1 : UnifiedReader :=
  { incoming := [strToBytes "\n\r\n"]
    buffer := c4Chunk1.drop 47
    state := ReqState.processingBody c4Chunk1 47
    readerType := ReaderType.chunked
    currentChunkSize := none }

/-- C4: the chunked-loop state on entry. -/
def c4S0 : ChunkedState :=
  { incoming := [strToBytes "\n\r\n"]
    buffer := c4Chunk1.drop 47
    currentChunkSize := none
    acc := c4Chunk1 }

/-- C4: the loop state after consuming the `hello` chunk: the buffer holds
only `0\r`, no chunk size is pending — and the loop never reads again. -/
def c4S1 : ChunkedState :=
  { incoming := [strToBytes "\n\r\n"]
    buffer := [48, 13]
    currentChunkSize := none
    acc := c4Chunk1 ++ strToBytes "hello" }

/-- C6: a session that expires exactly at time 5. -/
def c6Session : Session :=
  { id := "abc", data := [], createdAt := 0, expiresAt := some 5 }

/-- C6/C10: a store holding that session. -/
def c6Store : MemorySessionStore :=
  { sessions := [("abc", c6Session)] }

/-- C6: the request's cookie header naming the session. -/
def c6Hdr : Header := headerFromStr "cookie" "SID=abc"

/-- C7: a site root with one text file. -/
def c7Fs : Fs :=
  { files := [(["sites", "r", "x.txt"], [104, 105])]
    dirs := [["sites", "r"]] }

/-- C7: its static configuration. -/
def c7Sf : ServerStaticFiles :=
  { directory := ["sites", "r"]
    index := none
    allowDirectoryListing := false
    errorPages := none
    status := FileStatus.raw }

/-- C7: a route whose `methods` list contains only `POST`. -/
def c7Route : Route :=
  { path := "/x.txt"
    methods := [HttpMethod.POST]
    staticFiles := some c7Sf
    cgiConfig := none
    redirect := none
    sessionRequired := none
    sessionRedirect := none }

/-- C7: a `GET` request for that route — not in the methods list. -/
def c7Req : Request :=
  { method := HttpMethod.GET
    uri := "/x.txt"
    version := "HTTP/1.1"
    headers := []
    body := none }

/-- C7: a `PUT` request for that route (witness input). -/
def c7ReqPut : Request :=
  { method := HttpMethod.PUT
    uri := "/x.txt"
    version := "HTTP/1.1"
    headers := []
    body := none }

/-- C7: the 200 response the static handler produces for the `GET`. -/
def c7Resp : Response :=
  responseNew HttpStatusCode.ok
    [headerFromMime "text/plain", headerFromStr "content-length" "2"]
    (some (Body.text "hi"))

/-- C8: a cookie-options block with every attribute — including
`same_site` — unset. -/
def c8Opts : SessionOptionsConfig :=
  { httpOnly := some true
    secure := none
    maxAge := none
    path := none
    expires := none
    domain := none
    sameSite := none }

/-- C8: a session configuration carrying that options block. -/
def c8OptsConfig : SessionConfig :=
  { enabled := none, name := some "SID", options := some c8Opts }

/-- C8: a session configuration with no options block at all. -/
def c8PlainConfig : SessionConfig :=
  { enabled := none, name := some "SID", options := none }

/-- C9: CGI stdout containing a second CRLF CRLF inside the body. -/
def c9Out : ProcessOutput :=
  { statusSuccess := true
    stdout := "Content-Type: text/plain\r\n\r\nhello\r\n\r\nworld"
    stderr := "" }

/-- C9: what `parse_cgi_output` actually builds for it: the body stops at
the second separator. -/
def c9Resp : Response :=
  responseNew HttpStatusCode.ok [headerFromStr "Content-Type" "text/plain"]
    (some (Body.text "hello"))

/-! ## Theorems -/

/-- C1: `serve_static` never rejects a path that resolves outside the root.
For the request path `/../secret` the joined path resolves to
`sites/secret`, which is *not* prefixed by the root `sites/r`, yet
`serve_static` returns that file's bytes instead of an error.  The claimed
prefix check does not exist in the source. -/
theorem serveStatic_escapes_root :
    serveStatic c1Fs 5 c1Sf "/../secret" =
      some (Except.ok ([42], some "application/octet-stream", FileStatus.raw), c1Sf) ∧
    List.isPrefixOf c1Sf.directory
      (normalizePath (c1Sf.directory ++ splitPath (trimStartSlashes "/../secret"))) = false ∧
    fsLookup c1Fs ["sites", "secret"] = some [42] :=
  ⟨rfl, rfl, rfl⟩

/-- C3: the `Content-Length` the server computes for a binary body
(`body_len` = 4) does not match the bytes `Response::to_string` actually
emits after the blank line: the `Display` impl renders the placeholder
`"<4 bytes of binary data>"` (24 bytes), and a multipart body is rendered
as a summary line, not verbatim. -/
theorem contentLength_mismatch_binary_body :
    bodyLen c3Body = 4 ∧
    bodyToString c3Body = "<4 bytes of binary data>" ∧
    (bodyToString c3Body).length ≠ bodyLen c3Body ∧
    responseToString c3Response =
      "HTTP/1.1 200\r\nContent-Type: application/octet-stream\r\nContent-Length: 4\r\n\r\n<4 bytes of binary data>" ∧
    bodyToString (Body.multipart [("field", "value")] []) =
      "Multipart Form (Fields: 1, Files: 0)" :=
  ⟨rfl, rfl, by decide, rfl, rfl⟩

/-- C5: `HeaderName::from_str` has no match arm for `"cookie"` or
`"set-cookie"`, so both names — in any casing — fall through to the
catch-all and become `Custom` headers, not the enumerated `Cookie` /
`SetCookie` variants the session middleware looks for. -/
theorem cookie_headerName_is_custom :
    headerNameFromStr "Cookie" = HeaderName.custom "Cookie" ∧
    headerNameFromStr "Set-Cookie" = HeaderName.custom "Set-Cookie" ∧
    headerNameFromStr "cookie" = HeaderName.custom "cookie" ∧
    headerNameFromStr "Cookie" ≠ HeaderName.cookie ∧
    headerNameFromStr "Set-Cookie" ≠ HeaderName.setCookie :=
  ⟨rfl, rfl, rfl, by decide, by decide⟩

/-- C10: after `destroy_session` deletes an id, a store `get` for the same
id finds nothing. -/
theorem destroySession_then_get_none (timeDebug : Nat → String)
    (config : SessionConfig) (store : MemorySessionStore) (id : String) :
    storeGet (destroySession timeDebug config store id).1 id = none := by
  simp only [destroySession, storeDelete, storeGet, Option.map_eq_none',
    List.find?_eq_none]
  intro kv hkv
  have h := List.mem_filter.mp hkv
  simp only [ne_eq, decide_not, Bool.not_eq_true', decide_eq_false_iff_not] at h
  simp [h.2]

/-- A run of `'a'` bytes contains no CRLF CRLF window. -/
theorem findSeq_crlfcrlf_replicate (n : Nat) :
    findSeq [13, 10, 13, 10] (List.replicate n 97) = none := by
  induction n with
  | zero => rfl
  | succ n ih =>
      rw [List.replicate_succ]
      simp [findSeq, List.isPrefixOf, ih]

/-- `read_next` while awaiting headers, when the freshly extended buffer
still has no header terminator: the chunk is appended and the reader keeps
waiting — no size check of any kind intervenes. -/
theorem readNext_awaiting_accumulates (fuel : Nat) (rest : List (List Byte))
    (chunk buf : List Byte) (rt : ReaderType) (cs : Option Nat)
    (h1 : chunk.isEmpty = false)
    (h2 : findHeadersEnd (buf ++ chunk) = none) :
    readNext (fuel + 1)
        { incoming := chunk :: rest, buffer := buf,
          state := ReqState.awaitingHeaders, readerType := rt,
          currentChunkSize := cs } =
      some ({ incoming := rest, buffer := buf ++ chunk,
              state := ReqState.awaitingHeaders, readerType := rt,
              currentChunkSize := cs }, ReqState.awaitingHeaders) := by
  simp [readNext, h1, h2]

/-- C2: the `UnifiedReader` the server actually runs enforces no request
size cap.  After the first read the buffer holds `MAX_REQUEST_SIZE + 1`
bytes with the request still incomplete, yet the reader returns
`AwaitingHeaders` (neither an error nor a 413), and the next read grows
the buffer further.  (`stream.rs` declares `MAX_REQUEST_SIZE` but never
consults it.) -/
theorem readNext_no_size_cap :
    readNext 1 c2Reader = some (c2Reader1, ReqState.awaitingHeaders) ∧
    MAX_REQUEST_SIZE < c2Reader1.buffer.length ∧
    readNext 1 c2Reader1 = some (c2Reader2, ReqState.awaitingHeaders) ∧
    c2Reader2.buffer.length = c2Reader1.buffer.length + 1 := by
  have hne : (List.replicate (MAX_REQUEST_SIZE + 1) (97 : Byte)).isEmpty = false := by
    rw [List.replicate_succ]; rfl
  refine ⟨?_, ?_, ?_, ?_⟩
  · have h := readNext_awaiting_accumulates 0 [[97]]
      (List.replicate (MAX_REQUEST_SIZE + 1) 97) [] ReaderType.unknown none hne
      (by simp [findHeadersEnd, findPattern, findSeq_crlfcrlf_replicate])
    simpa [c2Reader, c2Reader1, unifiedReaderNew] using h
  · simp [c2Reader1, Nat.lt_succ_self]
  · have h := readNext_awaiting_accumulates 0 [] [97]
      (List.replicate (MAX_REQUEST_SIZE + 1) 97) ReaderType.unknown none rfl
      (by rw [← List.replicate_succ']
          simp [findHeadersEnd, findPattern, findSeq_crlfcrlf_replicate])
    rw [c2Reader1, c2Reader2]
    rw [h]
    rw [← List.replicate_succ']
  · simp [c2Reader1, c2Reader2]

/-- One chunked-loop iteration from the entry state: the `hello` chunk is
consumed and the loop state becomes `c4S1`. -/
theorem chunkedIter_c4S0 : chunkedIter c4S0 = ChunkedIter.next c4S1 := by
  rfl

/-- The stuck state is a fixpoint of the loop body: the buffer holds only
`0\r`, no complete size line and no pending chunk size, so the iteration
neither reads nor changes anything. -/
theorem chunkedIter_c4S1_fix : chunkedIter c4S1 = ChunkedIter.next c4S1 := by
  rfl

/-- From the stuck state the chunked loop never returns, at any fuel. -/
theorem processChunkedAux_c4S1_diverges (fuel : Nat) :
    processChunkedAux fuel c4S1 = none := by
  induction fuel with
  | zero => rfl
  | succ fuel ih => rw [processChunkedAux, chunkedIter_c4S1_fix]; exact ih

/-- From the loop's entry state the chunked loop never returns either. -/
theorem processChunkedAux_c4S0_diverges (fuel : Nat) :
    processChunkedAux fuel c4S0 = none := by
  cases fuel with
  | zero => rfl
  | succ fuel =>
      rw [processChunkedAux, chunkedIter_c4S0]
      exact processChunkedAux_c4S1_diverges fuel

/-- C4: the chunked reader completes on a zero-sized chunk only when the
zero-chunk line is already fully buffered.  The same request bytes
delivered in one read complete (second conjunct), but when the terminating
`0\r\n` line arrives split across two reads, `process_chunked_body` spins
forever without reading the second part: `read_next` returns for *no*
fuel value — the request never completes. -/
theorem chunked_split_zero_chunk_never_completes :
    (∀ fuel, readNext fuel c4Reader = none) ∧
    (readNext 6 (unifiedReaderNew [c4Chunk1 ++ strToBytes "\n\r\n"])).map (·.2) =
      some (ReqState.complete
        { data := c4Chunk1 ++ strToBytes "\n\r\n" ++ strToBytes "hello",
          headersEnd := 47 }) := by
  refine ⟨?_, by rfl⟩
  intro fuel
  match fuel with
  | 0 => rfl
  | 1 => rfl
  | (g + 2) =>
      have h1 : readNext (g + 2) c4Reader = readNext (g + 1) c4Reader1 := rfl
      have h2 : readNext (g + 1) c4Reader1 =
          processChunkedBody g c4Reader1 c4Chunk1 47 := rfl
      have hs : ({ incoming := c4Reader1.incoming, buffer := c4Reader1.buffer,
                   currentChunkSize := c4Reader1.currentChunkSize,
                   acc := c4Chunk1 } : ChunkedState) = c4S0 := rfl
      rw [h1, h2, processChunkedBody, hs, processChunkedAux_c4S0_diverges g]

/-- C6 (counterexample): `is_expired` uses a strict comparison
(`now > expires`), so a session whose expiry equals the current time is
still returned by `get_session` — its `expires_at` is *not* strictly
greater than now, refuting the claim at the boundary. -/
theorem getSession_boundary_not_strict :
    getSession 5 c6Store (some c6Hdr) = (Except.ok (some c6Session), c6Store) ∧
    c6Session.expiresAt = some 5 ∧
    ¬ (5 : Nat) < 5 :=
  ⟨rfl, rfl, by decide⟩

/-- C6 (amended): for a cookie header that parses, `get_session` returns
`Ok(None)` when the store has no record, deletes the record and fails with
`SessionExpired` when it is expired, and every session it returns has
`expires_at` absent or **greater than or equal to** the current time (not
strictly greater: `is_expired` is `now > expires`). -/
theorem getSession_spec (now : Nat) (store : MemorySessionStore)
    (hdr : Header) (c : Cookie) (hparse : cookieParse hdr.value = some c) :
    (storeGet store c.value = none →
        getSession now store (some hdr) = (Except.ok none, store)) ∧
    (∀ s, storeGet store c.value = some s → isExpired now s = true →
        getSession now store (some hdr) =
          (Except.error (SessionError.sessionExpired c.value),
           storeDelete store c.value)) ∧
    (∀ s st, getSession now store (some hdr) = (Except.ok (some s), st) →
        s.expiresAt = none ∨ ∃ e, s.expiresAt = some e ∧ now ≤ e) := by
  refine ⟨?_, ?_, ?_⟩
  · intro h
    simp [getSession, hparse, h]
  · intro s hs hexp
    simp [getSession, hparse, hs, hexp]
  · intro s st h
    rcases hget : storeGet store c.value with _ | s'
    · simp [getSession, hparse, hget] at h
    · by_cases hexp : isExpired now s' = true
      · simp [getSession, hparse, hget, hexp] at h
      · simp [getSession, hparse, hget, hexp] at h
        obtain ⟨hs', _⟩ := h
        subst hs'
        cases he : s'.expiresAt with
        | none => exact Or.inl rfl
        | some e =>
            refine Or.inr ⟨e, rfl, ?_⟩
            rw [isExpired, he] at hexp
            simpa using Nat.le_of_not_lt (by simpa using hexp)

/-- C6 (witness): applying the amended theorem at time 7 to the store whose
session expired at 5: the record is deleted and the call fails with
`SessionExpired`. -/
theorem getSession_spec_witness :
    cookieParse c6Hdr.value = some (cookieNew "SID" "abc") ∧
    getSession 7 c6Store (some c6Hdr) =
      (Except.error (SessionError.sessionExpired "abc"),
       storeDelete c6Store "abc") :=
  ⟨rfl, (getSession_spec 7 c6Store c6Hdr (cookieNew "SID" "abc") rfl).2.1
    c6Session rfl (by decide)⟩

/-- C7 (counterexample): a `GET` request on a route whose `methods` list is
`[POST]` is *not* answered 405: `route_request` never consults the
`methods` list and dispatches the request to the static handler, which
serves the file with status 200. -/
theorem routeRequest_ignores_methods :
    isMethodAllowed c7Route HttpMethod.GET = false ∧
    routeRequest (fun _ => none) (fun _ => Except.error "unavailable")
        (fun _ => Except.error "unavailable") false false c7Fs
        (Except.error "no exec") 5 c7Req c7Route =
      some (Except.ok c7Resp) ∧
    statusCodeNum c7Resp.statusCode = 200 ∧
    statusCodeNum c7Resp.statusCode ≠ 405 :=
  ⟨rfl, rfl, rfl, by decide⟩

/-- C7 (amended): `route_request` answers 405 exactly by request shape —
any non-`GET` request whose URI is outside `/api/files` and `/api/session`
(and outside the redirect pre-check, e.g. on a route with no redirect)
gets the 405 response, whatever the route's `methods` list, handlers or
configuration; `GET` requests are dispatched without any method check. -/
theorem routeRequest_405_by_shape (jsonParse : List Byte → Option Json)
    (fileApi sessionApi : Request → Except String Response)
    (hasUploader hasSessionManager : Bool) (fs : Fs)
    (cgiExec : Except String ProcessOutput) (fuel : Nat)
    (request : Request) (route : Route)
    (hm : request.method ≠ HttpMethod.GET)
    (hf : strStartsWith request.uri "/api/files" = false)
    (hs : strStartsWith request.uri "/api/session" = false)
    (hr : route.redirect = none) :
    routeRequest jsonParse fileApi sessionApi hasUploader hasSessionManager
        fs cgiExec fuel request route =
      some (Except.ok methodNotAllowedResponse) ∧
    statusCodeNum methodNotAllowedResponse.statusCode = 405 := by
  refine ⟨?_, rfl⟩
  rw [routeRequest]
  simp only [hr, hf, hs]
  cases hmethod : request.method <;> simp_all

/-- C7 (witness): a concrete `PUT` outside the API prefixes is answered
405 even though the route's methods list does contain `POST`. -/
theorem routeRequest_405_by_shape_witness :
    c7ReqPut.method ≠ HttpMethod.GET ∧
    routeRequest (fun _ => none) (fun _ => Except.error "unavailable")
        (fun _ => Except.error "unavailable") false false c7Fs
        (Except.error "no exec") 5 c7ReqPut c7Route =
      some (Except.ok methodNotAllowedResponse) ∧
    statusCodeNum methodNotAllowedResponse.statusCode = 405 :=
  ⟨by decide,
   (routeRequest_405_by_shape (fun _ => none) (fun _ => Except.error "unavailable")
     (fun _ => Except.error "unavailable") false false c7Fs
     (Except.error "no exec") 5 c7ReqPut c7Route (by decide) rfl rfl rfl).1,
   (routeRequest_405_by_shape (fun _ => none) (fun _ => Except.error "unavailable")
     (fun _ => Except.error "unavailable") false false c7Fs
     (Except.error "no exec") 5 c7ReqPut c7Route (by decide) rfl rfl rfl).2⟩

/-- C8 (counterexample): with a configuration whose cookie-options block is
present but leaves `SameSite` unset, the session cookie is built with
`SameSite=Strict`, not `SameSite=Lax`: the catch-all arm of
`create_session` maps an absent `same_site` to `Strict`. -/
theorem sessionCookie_unset_sameSite_strict :
    c8Opts.sameSite = none ∧
    cookieToString (fun _ => "") (createSessionCookie 0 c8OptsConfig "x") =
      "SID=x; HttpOnly; SameSite=Strict" ∧
    strContains (cookieToString (fun _ => "")
      (createSessionCookie 0 c8OptsConfig "x")) "SameSite=Lax" = false :=
  ⟨rfl, rfl, by decide⟩

/-- C8 (amended): the session cookie's `SameSite` is `Lax` only when the
configuration has no options block at all (then `CookieOptions::default()`
applies); when an options block is present with `same_site` unset, the
policy is `Strict`. -/
theorem sessionCookie_sameSite_defaults (now : Nat) (enabled : Option Bool)
    (name : Option String) (id : String) (opts : SessionOptionsConfig)
    (h : opts.sameSite = none) :
    (createSessionCookie now
        { enabled := enabled, name := name, options := some opts } id
      ).options.sameSite = SameSitePolicy.strict ∧
    (createSessionCookie now
        { enabled := enabled, name := name, options := none } id
      ).options.sameSite = SameSitePolicy.lax := by
  refine ⟨?_, rfl⟩
  simp [createSessionCookie, h]

/-- C8 (witness): the defaults theorem applied to the concrete
configurations. -/
theorem sessionCookie_sameSite_defaults_witness :
    c8Opts.sameSite = none ∧
    (createSessionCookie 3 c8OptsConfig "x").options.sameSite =
      SameSitePolicy.strict ∧
    (createSessionCookie 3 c8PlainConfig "x").options.sameSite =
      SameSitePolicy.lax :=
  ⟨rfl,
   (sessionCookie_sameSite_defaults 3 none (some "SID") "x" c8Opts rfl).1,
   (sessionCookie_sameSite_defaults 3 none (some "SID") "x" c8Opts rfl).2⟩

/-- C9 (counterexample): CGI stdout with a second CRLF CRLF inside the
body: `parse_cgi_output` takes only `parts[1]` as the body (`"hello"`),
dropping everything from the second separator on — not "the entire
remainder" the claim describes. -/
theorem parseCgiOutput_drops_later_parts :
    parseCgiOutput c9Out = Except.ok c9Resp ∧
    c9Resp.body = some (Body.text "hello") ∧
    "hello" ≠ "hello\r\n\r\nworld" ∧
    (strSplitOn c9Out.stdout "\r\n\r\n").length = 3 :=
  ⟨rfl, rfl, by decide, rfl⟩

/-- C9 (amended): for a successful child, stdout is split on *every*
CRLF CRLF: fewer than two pieces fail with `InvalidOutputFormat`, and
otherwise the response body is exactly the second piece (the text between
the first and second separators), later pieces being discarded. -/
theorem parseCgiOutput_spec (output : ProcessOutput)
    (hsucc : output.statusSuccess = true) :
    ((strSplitOn output.stdout "\r\n\r\n").length < 2 →
        parseCgiOutput output = Except.error CGIError.invalidOutputFormat) ∧
    (∀ r, parseCgiOutput output = Except.ok r →
        r.body = some (Body.text
          (((strSplitOn output.stdout "\r\n\r\n").get? 1).getD ""))) := by
  constructor
  · intro hlen
    simp [parseCgiOutput, hsucc, hlen]
  · intro r hr
    by_cases hlen : (strSplitOn output.stdout "\r\n\r\n").length < 2
    · simp [parseCgiOutput, hsucc, hlen] at hr
    · simp [parseCgiOutput, hsucc, hlen] at hr
      rw [← hr]
      simp [responseNew, List.get?_eq_getElem?]

/-- C9 (witness): the spec theorem applied to the concrete output with a
second separator in the body. -/
theorem parseCgiOutput_spec_witness :
    c9Out.statusSuccess = true ∧
    c9Resp.body = some (Body.text
      (((strSplitOn c9Out.stdout "\r\n\r\n").get? 1).getD "")) :=
  ⟨rfl, (parseCgiOutput_spec c9Out rfl).2 c9Resp rfl⟩

end Localhost
